import Mathlib

/-!
Verification of the cookie-based Cognito authentication core:
the cookie locator (`getCognitoCookieInfo`, `userIdToTokenKey`), the token
verifier (`findMatchingPem`, `verifyToken`), the session resolver
(`getAuthFromCookies`) and the client-side reconciler listeners
(`autoLoginAction`, `autoLogoutAction`), embedded from `src/cognito.ts` and
`src/auth.ts`.

External primitives used by that code (the JS builtins `encodeURIComponent`,
`decodeURIComponent`, `escape`, the `cookie` package's `parse`, and the
`jsonwebtoken` package's `verify`) are modelled explicitly below, at the level
of character lists so that everything is executable.
-/

set_option maxRecDepth 20000

/-! ## JS string primitives -/

/-- Truthiness of a nullable JS string: `null` and `""` are falsy. -/
def jsTruthy : Option String → Bool
  | none => false
  | some s => !(s == "")

/-- Uppercase hexadecimal digit, as produced by `encodeURIComponent`. -/
def hexDigit (n : Nat) : Char :=
  "0123456789ABCDEF".data.getD n '0'

/-- The three characters `%XY` that percent-encode the byte `b`. -/
def percentByte (b : Nat) : List Char :=
  ['%', hexDigit (b / 16), hexDigit (b % 16)]

/-- The characters `encodeURIComponent` leaves unescaped:
ASCII alphanumerics and `- _ . ! ~ * ' ( )`. -/
def isUriSafe (c : Char) : Bool :=
  c.isAlphanum || ['-', '_', '.', '!', '~', '*', Char.ofNat 39, '(', ')'].contains c

/-- UTF-8 bytes of the code point `n` (as `encodeURIComponent` emits them). -/
def utf8Bytes (n : Nat) : List Nat :=
  if n < 0x80 then [n]
  else if n < 0x800 then [0xC0 + n / 0x40, 0x80 + n % 0x40]
  else if n < 0x10000 then [0xE0 + n / 0x1000, 0x80 + n / 0x40 % 0x40, 0x80 + n % 0x40]
  else [0xF0 + n / 0x40000, 0x80 + n / 0x1000 % 0x40, 0x80 + n / 0x40 % 0x40, 0x80 + n % 0x40]

/-- Percent-encoded blocks for a list of bytes. -/
def blocks (bs : List Nat) : List Char :=
  bs.foldr (fun b acc => percentByte b ++ acc) []

/-- The builtin `encodeURIComponent` on a single character. -/
def encChar (c : Char) : List Char :=
  if isUriSafe c then [c] else blocks (utf8Bytes c.toNat)

/-- The builtin `encodeURIComponent` over a character list. -/
def encodeAll (cs : List Char) : List Char :=
  cs.foldr (fun c acc => encChar c ++ acc) []

/-- The JS builtin `encodeURIComponent`. -/
def encodeURIComponentM (s : String) : String :=
  ⟨encodeAll s.data⟩

/-- The seven escape sequences un-escaped by the regex
`/%(2[346B]|5E|60|7C)/g` in `userIdToTokenKey`, mapped (via
`decodeURIComponent` applied to the whole match) to the character they
encode: `%23`→`#`, `%24`→`$`, `%26`→`&`, `%2B`→`+`, `%5E`→`^`,
`%60`→backtick, `%7C`→`|`. -/
def unescapeHit (a b : Char) : Option Char :=
  if a = '2' then
    (if b = '3' then some '#'
     else if b = '4' then some '$'
     else if b = '6' then some '&'
     else if b = 'B' then some '+'
     else none)
  else if a = '5' then (if b = 'E' then some (Char.ofNat 0x5E) else none)
  else if a = '6' then (if b = '0' then some (Char.ofNat 0x60) else none)
  else if a = '7' then (if b = 'C' then some (Char.ofNat 0x7C) else none)
  else none

/-- The byte values of the seven un-escaped characters. -/
def sevenBytes : List Nat := [0x23, 0x24, 0x26, 0x2B, 0x5E, 0x60, 0x7C]

/-- Fuel-indexed left-to-right scan of the global regex replace
`.replace(/%(2[346B]|5E|60|7C)/g, decodeURIComponent)`: on a `%` the next
two characters are checked against the seven patterns; a match is replaced
and the scan resumes after it, otherwise the scan advances one character
(exactly the regex engine's behaviour for this fixed-width pattern). -/
def rpAux : Nat → List Char → List Char
  | 0, cs => cs
  | _ + 1, [] => []
  | f + 1, c :: rest =>
    if c = '%' then
      match rest with
      | a :: b :: rest2 =>
        match unescapeHit a b with
        | some d => d :: rpAux f rest2
        | none => c :: rpAux f rest
      | _ => c :: rpAux f rest
    else c :: rpAux f rest

/-- The global regex replace `.replace(/%(2[346B]|5E|60|7C)/g,
decodeURIComponent)` (the fuel `cs.length` always suffices). -/
def replacePass (cs : List Char) : List Char := rpAux cs.length cs

/-- One character of `.replace(/[()]/g, escape)`:
`escape` maps `(` to `%28` and `)` to `%29`. -/
def escParChar (c : Char) : List Char :=
  if c = '(' then ['%', '2', '8']
  else if c = ')' then ['%', '2', '9']
  else [c]

/-- The global regex replace `.replace(/[()]/g, escape)`. -/
def escapeParensPass (cs : List Char) : List Char :=
  cs.foldr (fun c acc => escParChar c ++ acc) []

/-- Embeds `userIdToTokenKey` from `src/cognito.ts`: the same escaping algorithm as
js-cookie (used by aws-amplify/auth), namely `encodeURIComponent`, then
un-escape `%23 %24 %26 %2B %5E %60 %7C`, then `escape` the parentheses. -/
def userIdToTokenKey (key : String) : String :=
  ⟨escapeParensPass (replacePass (encodeAll key.data))⟩

/-- Modelled from the spec: the cookie-writing library's (js-cookie's)
escaping rule for a single character of a cookie key, stated directly as the
per-character net effect: parentheses become `%28`/`%29`; other
`encodeURIComponent`-safe characters and the seven characters
`# $ & + ^ backtick |` stay themselves; everything else is
percent-encoded per UTF-8 byte. -/
def jsCookieCharEnc (c : Char) : List Char :=
  if c = '(' then ['%', '2', '8']
  else if c = ')' then ['%', '2', '9']
  else if isUriSafe c then [c]
  else if sevenBytes.contains c.toNat then [c]
  else blocks (utf8Bytes c.toNat)

/-- Modelled from the spec: the cookie-writing library's escaping rule for a
whole cookie-key segment. -/
def jsCookieKeyEncode (s : String) : String :=
  ⟨s.data.foldr (fun c acc => jsCookieCharEnc c ++ acc) []⟩

/-- Intermediate: the shape of one source character's encoding after the
un-escape pass (used to factor the main equivalence proof). -/
def midChar (c : Char) : List Char :=
  if isUriSafe c then [c]
  else if sevenBytes.contains c.toNat then [c]
  else blocks (utf8Bytes c.toNat)

/-! ## decodeURIComponent and cookie parsing (the `cookie` package) -/

/-- Hexadecimal value of a digit, as accepted by `decodeURIComponent`. -/
def hexVal (c : Char) : Option Nat :=
  if c.isDigit then some (c.toNat - 48)
  else if 'A' ≤ c ∧ c ≤ 'F' then some (c.toNat - 55)
  else if 'a' ≤ c ∧ c ≤ 'f' then some (c.toNat - 87)
  else none

/-- A `%XY` continuation byte (must be `0x80..0xBF`), with its payload. -/
def contByte (a b : Char) : Option Nat :=
  match hexVal a, hexVal b with
  | some ha, some hb =>
    let v := ha * 16 + hb
    if 0x80 ≤ v ∧ v < 0xC0 then some (v - 0x80) else none
  | _, _ => none

/-- Fuel-indexed core of the JS builtin `decodeURIComponent`: literal
characters pass through, `%XY` sequences are decoded as UTF-8 (contiguous
continuation bytes must themselves be `%`-escaped); malformed input yields
`none` (a thrown `URIError`). -/
def pdecodeAux : Nat → List Char → Option (List Char)
  | 0, [] => some []
  | 0, _ :: _ => none
  | _ + 1, [] => some []
  | fuel + 1, c :: rest =>
    if c = '%' then
      match rest with
      | a :: b :: rest2 =>
        match hexVal a, hexVal b with
        | some ha, some hb =>
          let b0 := ha * 16 + hb
          if b0 < 0x80 then (pdecodeAux fuel rest2).map (Char.ofNat b0 :: ·)
          else if 0xC2 ≤ b0 ∧ b0 < 0xE0 then
            match rest2 with
            | '%' :: a1 :: b1 :: rest3 =>
              match contByte a1 b1 with
              | some c1 => (pdecodeAux fuel rest3).map (Char.ofNat ((b0 - 0xC0) * 0x40 + c1) :: ·)
              | none => none
            | _ => none
          else if 0xE0 ≤ b0 ∧ b0 < 0xF0 then
            match rest2 with
            | '%' :: a1 :: b1 :: '%' :: a2 :: b2 :: rest3 =>
              match contByte a1 b1, contByte a2 b2 with
              | some c1, some c2 =>
                let cp := (b0 - 0xE0) * 0x1000 + c1 * 0x40 + c2
                if 0x800 ≤ cp ∧ ¬(0xD800 ≤ cp ∧ cp < 0xE000) then
                  (pdecodeAux fuel rest3).map (Char.ofNat cp :: ·)
                else none
              | _, _ => none
            | _ => none
          else if 0xF0 ≤ b0 ∧ b0 ≤ 0xF4 then
            match rest2 with
            | '%' :: a1 :: b1 :: '%' :: a2 :: b2 :: '%' :: a3 :: b3 :: rest3 =>
              match contByte a1 b1, contByte a2 b2, contByte a3 b3 with
              | some c1, some c2, some c3 =>
                let cp := (b0 - 0xF0) * 0x40000 + c1 * 0x1000 + c2 * 0x40 + c3
                if 0x10000 ≤ cp ∧ cp < 0x110000 then
                  (pdecodeAux fuel rest3).map (Char.ofNat cp :: ·)
                else none
              | _, _, _ => none
            | _ => none
          else none
        | _, _ => none
      | _ => none
    else (pdecodeAux fuel rest).map (c :: ·)

/-- The JS builtin `decodeURIComponent` (`none` models a thrown `URIError`). -/
def decodeURIComponentM (s : String) : Option String :=
  (pdecodeAux s.data.length s.data).map (fun cs => ⟨cs⟩)

/-- Embeds `tryDecode` from the `cookie` package: decode a value only if it contains
`%`; on a decoding error keep the original value. -/
def tryDecode (v : List Char) : List Char :=
  if v.contains '%' then
    match pdecodeAux v.length v with
    | some d => d
    | none => v
  else v

/-- Split a character list on a separator (JS `String.prototype.split`). -/
def splitOnChar (sep : Char) (cs : List Char) : List (List Char) :=
  cs.foldr
    (fun c acc =>
      match acc with
      | [] => [[c]]
      | g :: gs => if c = sep then [] :: g :: gs else (c :: g) :: gs)
    [[]]

/-- JS `String.prototype.trim` on a character list. -/
def trimChars (cs : List Char) : List Char :=
  ((cs.dropWhile Char.isWhitespace).reverse.dropWhile Char.isWhitespace).reverse

/-- Split a cookie pair at its first `=` (JS `indexOf('=')`); `none` when the
pair contains no `=` (the pair is then skipped). -/
def splitAtEq (cs : List Char) : Option (List Char × List Char) :=
  match cs.dropWhile (fun c => !(c == '=')) with
  | [] => none
  | _ :: after => some (cs.takeWhile (fun c => !(c == '=')), after)

/-- The `cookie` package strips one layer of surrounding double quotes
(`val.slice(1, -1)` when the value starts with a quote). -/
def stripQuotes (v : List Char) : List Char :=
  match v with
  | c :: _ => if c = Char.ofNat 34 then (v.drop 1).dropLast else v
  | [] => v

/-- Embeds `parse` from the `cookie` package: split the header on `;`, take each
pair's first `=`, trim key and value, strip quotes, percent-decode values
containing `%` (keeping the raw value on a decode error); the first
occurrence of a key wins. Keys are never decoded. -/
def cookieParse (s : String) : List (String × String) :=
  (splitOnChar ';' s.data).foldl
    (fun acc part =>
      match splitAtEq part with
      | none => acc
      | some (k, v) =>
        let key : String := ⟨trimChars k⟩
        let value : String := ⟨tryDecode (stripQuotes (trimChars v))⟩
        if (acc.find? (fun p => p.1 == key)).isSome then acc else acc ++ [(key, value)])
    []

/-- Lookup `cookieData[key]` (absent key models JS `undefined`). -/
def cookieGet (data : List (String × String)) (key : String) : Option String :=
  (data.find? (fun p => p.1 == key)).map (fun p => p.2)

/-! ## The cookie locator (`src/cognito.ts`) -/

structure CognitoCookieInfo where
  lastUser : Option String
  idToken : Option String
  accessToken : Option String
deriving DecidableEq

inductive ConfigError
  | missingClientId
deriving DecidableEq

/-- Embeds `unauthenticatedCookies` from `src/cognito.ts`. -/
def unauthenticatedCookies : CognitoCookieInfo := ⟨none, none, none⟩

/-- Embeds `getCognitoCookieInfo` from `src/cognito.ts`: throws when the client id
is missing (falsy); returns the all-absent record when the cookie string is
falsy; otherwise parses the header and looks up the `LastAuthUser` cookie
and, under the key computed via `userIdToTokenKey`, the two token cookies.
Falsy (absent or empty) cookie values yield `null` fields. -/
def getCognitoCookieInfo (cookieString : Option String)
    (userPoolWebClientId : Option String) : Except ConfigError CognitoCookieInfo :=
  if !(jsTruthy userPoolWebClientId) then Except.error ConfigError.missingClientId
  else
    let clientId := userPoolWebClientId.getD ""
    if !(jsTruthy cookieString) then Except.ok unauthenticatedCookies
    else
      let cookieData := cookieParse (cookieString.getD "")
      let keyBase := "CognitoIdentityServiceProvider." ++ clientId
      let lastUserVal := cookieGet cookieData (keyBase ++ ".LastAuthUser")
      let lastUser := if jsTruthy lastUserVal then lastUserVal else none
      let idToken :=
        match lastUser with
        | some lu =>
          let v := cookieGet cookieData (keyBase ++ "." ++ userIdToTokenKey lu ++ ".idToken")
          if jsTruthy v then v else none
        | none => none
      let accessToken :=
        match lastUser with
        | some lu =>
          let v := cookieGet cookieData (keyBase ++ "." ++ userIdToTokenKey lu ++ ".accessToken")
          if jsTruthy v then v else none
        | none => none
      Except.ok ⟨lastUser, idToken, accessToken⟩

/-! ## The token verifier (`src/auth.ts`) -/

structure IdTokenData where
  sub : String
  aud : String
  email_verified : Bool
  event_id : String
  token_use : String
  auth_time : Nat
  iss : String
  cognitoUsername : String
  exp : Nat
  iat : Nat
  email : String
deriving DecidableEq

structure AccessTokenData where
  sub : String
  event_id : String
  token_use : String
  scope : String
  auth_time : Nat
  iss : String
  exp : Nat
  iat : Nat
  jti : String
  client_id : String
  username : String
deriving DecidableEq

structure AWSCognitoPublicPem where
  kid : String
  pem : String
deriving DecidableEq

/-- Decoded JWT header (`kid` may be missing from the JSON). -/
structure JwtHeader where
  alg : String
  kid : Option String
deriving DecidableEq

/-- Exceptions thrown by the JWT layer: `malformedHeader` models the
`JSON.parse(base64.decode(...))` failure in `findMatchingPem`;
the others model the `jsonwebtoken` errors, with `tokenExpired`
standing for `TokenExpiredError`. -/
inductive JwtError
  | malformedHeader
  | invalidAlgorithm
  | invalidSignature
  | tokenExpired
deriving DecidableEq

/-- Semantics of a token string as a JWT, supplied as an environment:
the decoded header (`none` when the header segment is not well-formed
base64/JSON), the payload the token carries, which pems its signature
verifies under, and whether it is expired. -/
structure TokenFacts (α : Type) where
  header : Option JwtHeader
  payload : α
  sigValidWith : String → Bool
  expired : Bool

/-- Modelled from the documented behaviour of the external `jsonwebtoken`
package: `jwt.verify(token, pem, { algorithms })` throws on a malformed
token, throws `invalid algorithm` when the header's `alg` is not in the
allow-list (the algorithm is taken from the allow-list, never inferred from
the token), throws on a bad signature, throws `TokenExpiredError` on an
expired token, and otherwise returns the decoded payload. -/
def jwtVerify {α : Type} (tf : TokenFacts α) (pem : String)
    (algorithms : List String) : Except JwtError α :=
  match tf.header with
  | none => Except.error JwtError.malformedHeader
  | some h =>
    if !(algorithms.contains h.alg) then Except.error JwtError.invalidAlgorithm
    else if !(tf.sigValidWith pem) then Except.error JwtError.invalidSignature
    else if tf.expired then Except.error JwtError.tokenExpired
    else Except.ok tf.payload

/-- Embeds `findMatchingPem` from `src/auth.ts`: returns `undefined` for a falsy
token; decodes the token's first segment (which throws on malformed input,
modelled as `Except.error`) and finds the pem whose `kid` equals the
header's `kid`. -/
def findMatchingPem {α : Type} (env : String → TokenFacts α)
    (pems : List AWSCognitoPublicPem) (token : String) :
    Except JwtError (Option AWSCognitoPublicPem) :=
  if token == "" then Except.ok none
  else
    match (env token).header with
    | none => Except.error JwtError.malformedHeader
    | some h => Except.ok (pems.find? (fun p => h.kid == some p.kid))

/-- Embeds `verifyToken` from `src/auth.ts`, including the diagnostic log: returns
`null` for a falsy token; inside `try`, locates the pem (absent pem yields
`null`), runs `jwt.verify` with the fixed allow-list `["RS256"]`, and
applies the optional `validate` predicate (a failing predicate yields
`null`); the `catch` block logs the exception unless it is a
`TokenExpiredError` and returns `null`. The boolean `if (!data) return
null` guard of the source is omitted: a successfully decoded payload object
is always truthy. The second component collects the `console.log` calls. -/
def verifyTokenLogged {α : Type} (env : String → TokenFacts α)
    (pems : List AWSCognitoPublicPem) (token : Option String)
    (validate : Option (α → Bool)) : Option α × List JwtError :=
  if !(jsTruthy token) then (none, [])
  else
    let t := token.getD ""
    let body : Except JwtError (Option α) :=
      match findMatchingPem env pems t with
      | Except.error e => Except.error e
      | Except.ok none => Except.ok none
      | Except.ok (some pe) =>
        match jwtVerify (env t) pe.pem ["RS256"] with
        | Except.error e => Except.error e
        | Except.ok data =>
          match validate with
          | some v => if !(v data) then Except.ok none else Except.ok (some data)
          | none => Except.ok (some data)
    match body with
    | Except.ok r => (r, [])
    | Except.error e => (none, if e = JwtError.tokenExpired then [] else [e])

/-- The value `verifyToken` returns to its caller. -/
def verifyToken {α : Type} (env : String → TokenFacts α)
    (pems : List AWSCognitoPublicPem) (token : Option String)
    (validate : Option (α → Bool)) : Option α :=
  (verifyTokenLogged env pems token validate).1

/-! ## The session resolver (`src/auth.ts`) -/

/-- The non-null payload of `AuthTokens`. -/
structure AuthTokensRec where
  accessTokenData : AccessTokenData
  idTokenData : IdTokenData
  idToken : String
  accessToken : String
deriving DecidableEq

/-- Embeds `getAuthFromCookies` from `src/auth.ts`: `null` for a falsy cookie
header; locates both token cookies (either missing one yields `null`);
verifies the id token with `aud === userPoolClientId` and the access token
with `client_id === userPoolClientId`; either verification failing yields
`null`, otherwise the composed record. The configuration error thrown by
`getCognitoCookieInfo` propagates. -/
def getAuthFromCookies (envId : String → TokenFacts IdTokenData)
    (envAccess : String → TokenFacts AccessTokenData)
    (pems : List AWSCognitoPublicPem) (userPoolClientId : String)
    (cookie : Option String) : Except ConfigError (Option AuthTokensRec) :=
  if !(jsTruthy cookie) then Except.ok none
  else
    match getCognitoCookieInfo cookie (some userPoolClientId) with
    | Except.error e => Except.error e
    | Except.ok info =>
      if !(jsTruthy info.idToken) || !(jsTruthy info.accessToken) then Except.ok none
      else
        let idTokenData :=
          verifyToken envId pems info.idToken (some (fun d => d.aud == userPoolClientId))
        let accessTokenData :=
          verifyToken envAccess pems info.accessToken
            (some (fun d => d.client_id == userPoolClientId))
        match idTokenData, accessTokenData with
        | some i, some a =>
          Except.ok (some ⟨a, i, info.idToken.getD "", info.accessToken.getD ""⟩)
        | _, _ => Except.ok none

/-! ## The reconciler listeners (`src/auth.ts`) -/

def AUTH_SYNC_KEY : String := "auth_sync_key"

inductive LoginAction
  | noop
  | reload
deriving DecidableEq

inductive LogoutAction
  | noop
  | reload
  | signOutFlow (redirectAfterSignOut : String)
deriving DecidableEq

/-- JS `String.prototype.startsWith` on character lists. -/
def startsWithChars : List Char → List Char → Bool
  | [], _ => true
  | _ :: _, [] => false
  | p :: ps, c :: cs => p == c && startsWithChars ps cs

/-- The token-exchange landing route guard used by both listeners:
`pathname === "/token" || pathname.startsWith("/token/")`. -/
def onTokenPage (pathname : String) : Bool :=
  pathname == "/token" || startsWithChars "/token/".data pathname.data

/-- The storage listener installed by `useAutoLogin`, as a pure function of
its reads: the storage event's key and new value, the id token currently in
`document.cookie` (as located by `getCognitoCookieInfo`), the held `auth`
state and `window.location.pathname`. Returns the navigation it performs. -/
def autoLoginAction (eventKey : String) (eventNewValue : Option String)
    (cookieIdToken : Option String) (auth : Option AuthTokensRec)
    (pathname : String) : LoginAction :=
  if eventKey != AUTH_SYNC_KEY || eventNewValue == none then LoginAction.noop
  else
    if jsTruthy cookieIdToken
        && (match auth with
            | none => true
            | some a => a.idToken != cookieIdToken.getD "") then
      if onTokenPage pathname then LoginAction.noop else LoginAction.reload
    else LoginAction.noop

/-- The focus/storage listener installed by `useAutoLogout`, as a pure
function of its reads: the id token currently in `document.cookie`,
`Boolean(auth)`, `window.location.pathname` and `window.location.href`.
Returns the action it performs (`signOutFlow` is `Auth.signOut` after
setting `redirectAfterSignOut` to the current url). -/
def autoLogoutAction (cookieIdToken : Option String) (isAuthenticated : Bool)
    (pathname : String) (href : String) : LogoutAction :=
  if !(jsTruthy cookieIdToken) && isAuthenticated then
    if onTokenPage pathname then LogoutAction.noop
    else if jsTruthy cookieIdToken then LogoutAction.signOutFlow href
    else LogoutAction.reload
  else LogoutAction.noop

/-! ## Sample data for witnesses -/

deriving instance DecidableEq for Except

/-- Sample key store. -/
def samplePems : List AWSCognitoPublicPem := [⟨"kid1", "pem1"⟩]

def sampleIdPayload : IdTokenData :=
  ⟨"sub1", "app", true, "ev1", "id", 0, "iss1", "alice", 10, 0, "alice@example.com"⟩

def sampleAccessPayload : AccessTokenData :=
  ⟨"sub1", "ev1", "access", "openid", 0, "iss1", 10, 0, "jti1", "app", "alice"⟩

/-- A well-formed, correctly signed, unexpired id token environment. -/
def sampleEnvId : String → TokenFacts IdTokenData :=
  fun _ => ⟨some ⟨"RS256", some "kid1"⟩, sampleIdPayload, fun _ => true, false⟩

/-- A well-formed, correctly signed, unexpired access token environment. -/
def sampleEnvAccess : String → TokenFacts AccessTokenData :=
  fun _ => ⟨some ⟨"RS256", some "kid1"⟩, sampleAccessPayload, fun _ => true, false⟩

/-- An environment whose tokens declare algorithm HS256. -/
def sampleEnvHs : String → TokenFacts IdTokenData :=
  fun _ => ⟨some ⟨"HS256", some "kid1"⟩, sampleIdPayload, fun _ => true, false⟩

/-- An environment whose tokens have an unparseable header segment. -/
def sampleEnvBadHeader : String → TokenFacts IdTokenData :=
  fun _ => ⟨none, sampleIdPayload, fun _ => true, false⟩

/-- An environment whose tokens are valid but expired. -/
def sampleEnvExpired : String → TokenFacts IdTokenData :=
  fun _ => ⟨some ⟨"RS256", some "kid1"⟩, sampleIdPayload, fun _ => true, true⟩

/-- The record `getAuthFromCookies` assembles for the sample inputs. -/
def sampleAuthRec : AuthTokensRec :=
  ⟨sampleAccessPayload, sampleIdPayload, "tokI", "tokA"⟩

/-- A full valid cookie header for user `alice` and client id `app`. -/
def sampleCookieHeader : String :=
  "CognitoIdentityServiceProvider.app.LastAuthUser=alice; CognitoIdentityServiceProvider.app.alice.idToken=tokI; CognitoIdentityServiceProvider.app.alice.accessToken=tokA"

/-- The cookie header a js-cookie-based client writes for the user id
`user+test@example.com` (the `+` is preserved in the token cookie names). -/
def plusUserHeader : String :=
  "CognitoIdentityServiceProvider.app.LastAuthUser=user+test@example.com; CognitoIdentityServiceProvider.app.user+test%40example.com.idToken=tokA; CognitoIdentityServiceProvider.app.user+test%40example.com.accessToken=tokB"

/-- The cookie header a js-cookie-based client writes for the user id
`user(test)@example.com` (the parentheses are escaped in the token cookie
names). -/
def parenUserHeader : String :=
  "CognitoIdentityServiceProvider.app.LastAuthUser=user(test)@example.com; CognitoIdentityServiceProvider.app.user%28test%29%40example.com.idToken=tokC; CognitoIdentityServiceProvider.app.user%28test%29%40example.com.accessToken=tokD"

/-! ## Helper lemmas: the un-escape scan -/

theorem rpAux_nil (f : Nat) : rpAux f [] = [] := by cases f <;> rfl

theorem rpAux_fuel : ∀ (f g : Nat) (cs : List Char),
    cs.length ≤ f → cs.length ≤ g → rpAux f cs = rpAux g cs := by
  intro f
  induction f with
  | zero =>
    intro g cs h1 _
    have hnil : cs = [] := List.eq_nil_of_length_eq_zero (Nat.le_zero.mp h1)
    subst hnil
    rw [rpAux_nil, rpAux_nil]
  | succ f ih =>
    intro g cs h1 h2
    cases cs with
    | nil => rw [rpAux_nil, rpAux_nil]
    | cons c rest =>
      cases g with
      | zero => simp at h2
      | succ g' =>
        simp only [List.length_cons, Nat.succ_le_succ_iff] at h1 h2
        simp only [rpAux]
        by_cases hc : c = '%'
        · simp only [hc, ite_true, if_pos]
          cases rest with
          | nil => rw [rpAux_nil, rpAux_nil]
          | cons a rest' =>
            cases rest' with
            | nil =>
              dsimp only
              rw [ih g' [a] (by simp at h1 ⊢; omega) (by simp at h2 ⊢; omega)]
            | cons b rest2 =>
              simp only [List.length_cons] at h1 h2
              dsimp only
              cases hu : unescapeHit a b with
              | some d =>
                rw [ih g' rest2 (by omega) (by omega)]
              | none =>
                rw [ih g' (a :: b :: rest2)
                  (by simp only [List.length_cons]; omega)
                  (by simp only [List.length_cons]; omega)]
        · simp only [hc, ite_false, if_neg]
          rw [ih g' rest (by omega) (by omega)]

theorem rpAux_run (f : Nat) (cs : List Char) (h : cs.length ≤ f) :
    rpAux f cs = replacePass cs :=
  rpAux_fuel f cs.length cs h (Nat.le_refl _)

theorem replacePass_cons_ne (c : Char) (cs : List Char) (hc : c ≠ '%') :
    replacePass (c :: cs) = c :: replacePass cs := by
  simp only [replacePass, List.length_cons, rpAux, hc, if_neg, ite_false]

theorem replacePass_hit (a b d : Char) (cs : List Char)
    (hu : unescapeHit a b = some d) :
    replacePass ('%' :: a :: b :: cs) = d :: replacePass cs := by
  simp only [replacePass, List.length_cons, rpAux, if_pos, ite_true, hu]
  rw [rpAux_fuel (cs.length + 1 + 1) cs.length cs (by omega) (Nat.le_refl _)]

theorem replacePass_miss (a b : Char) (cs : List Char)
    (hu : unescapeHit a b = none) :
    replacePass ('%' :: a :: b :: cs) = '%' :: replacePass (a :: b :: cs) := by
  simp only [replacePass, List.length_cons, rpAux, if_pos, ite_true, hu]

/-! ## Helper lemmas: bytes, hex digits and the seven special characters -/

theorem hexDigit_facts : ∀ m : Nat, m < 16 →
    hexDigit m ≠ '%' ∧ hexDigit m ≠ '(' ∧ hexDigit m ≠ ')' := by decide

theorem unescapeHit_hex : ∀ b : Nat, b < 256 →
    unescapeHit (hexDigit (b / 16)) (hexDigit (b % 16)) =
      (if sevenBytes.contains b then some (Char.ofNat b) else none) := by decide

theorem seven_lt (b : Nat) (h : sevenBytes.contains b = true) : b < 128 := by
  simp [sevenBytes, List.contains] at h
  rcases h with h | h | h | h | h | h | h <;> omega

theorem char_toNat_lt (c : Char) : c.toNat < 0x110000 := by
  rcases c.valid with h | ⟨_, h2⟩
  · exact lt_trans h (by norm_num)
  · exact h2

theorem utf8Bytes_bounds (n : Nat) (hn : n < 0x110000) :
    ∀ b ∈ utf8Bytes n, b < 256 := by
  intro b hb
  unfold utf8Bytes at hb
  by_cases h1 : n < 0x80
  · simp [h1] at hb; omega
  · by_cases h2 : n < 0x800
    · simp [h1, h2] at hb; rcases hb with h | h <;> omega
    · by_cases h3 : n < 0x10000
      · simp [h1, h2, h3] at hb; rcases hb with h | h | h <;> omega
      · simp [h1, h2, h3] at hb; rcases hb with h | h | h | h <;> omega

theorem utf8Bytes_hi (n : Nat) (hn : 0x80 ≤ n) :
    ∀ b ∈ utf8Bytes n, 0x80 ≤ b := by
  intro b hb
  unfold utf8Bytes at hb
  by_cases h1 : n < 0x80
  · omega
  · by_cases h2 : n < 0x800
    · simp [h1, h2] at hb; rcases hb with h | h <;> omega
    · by_cases h3 : n < 0x10000
      · simp [h1, h2, h3] at hb; rcases hb with h | h | h <;> omega
      · simp [h1, h2, h3] at hb; rcases hb with h | h | h | h <;> omega

/-! ## Helper lemmas: the encoding pipeline, block by block -/

theorem replacePass_pblock (b : Nat) (hb : b < 256) (cs : List Char) :
    replacePass (percentByte b ++ cs) =
      (if sevenBytes.contains b then [Char.ofNat b] else percentByte b) ++ replacePass cs := by
  have hhit := unescapeHit_hex b hb
  cases h7 : sevenBytes.contains b with
  | true =>
    rw [h7, if_pos rfl] at hhit
    simp only [percentByte, List.cons_append, List.nil_append, h7, if_pos, ite_true]
    exact replacePass_hit _ _ _ _ hhit
  | false =>
    rw [h7] at hhit
    simp only [if_neg, Bool.false_eq_true, not_false_iff, ite_false] at hhit
    simp only [percentByte, List.cons_append, List.nil_append, h7, Bool.false_eq_true,
      not_false_iff, if_neg, ite_false]
    rw [replacePass_miss _ _ _ hhit]
    rw [replacePass_cons_ne _ _ (hexDigit_facts (b / 16) (by omega)).1]
    rw [replacePass_cons_ne _ _ (hexDigit_facts (b % 16) (by omega)).1]

theorem replacePass_blocks (bs : List Nat)
    (h : ∀ b ∈ bs, b < 256 ∧ sevenBytes.contains b = false) (cs : List Char) :
    replacePass (blocks bs ++ cs) = blocks bs ++ replacePass cs := by
  induction bs with
  | nil => simp [blocks]
  | cons b bs ih =>
    have hb := h b (List.mem_cons_self b bs)
    have hrest : ∀ x ∈ bs, x < 256 ∧ sevenBytes.contains x = false :=
      fun x hx => h x (List.mem_cons_of_mem b hx)
    simp only [blocks, List.foldr_cons, List.append_assoc]
    rw [show (bs.foldr (fun b acc => percentByte b ++ acc) []) = blocks bs from rfl]
    rw [replacePass_pblock b hb.1, hb.2, if_neg (by simp)]
    rw [ih hrest]

theorem isUriSafe_percent : isUriSafe '%' = false := by decide

theorem replacePass_encChar (c : Char) (cs : List Char) :
    replacePass (encChar c ++ cs) = midChar c ++ replacePass cs := by
  by_cases hs : isUriSafe c
  · simp only [encChar, midChar, hs, ite_true, if_pos, List.cons_append, List.nil_append]
    apply replacePass_cons_ne
    intro hc
    rw [hc] at hs
    exact absurd hs (by decide)
  · simp only [encChar, midChar, hs, Bool.false_eq_true, not_false_iff, if_neg, ite_false]
    by_cases h80 : c.toNat < 0x80
    · have hb : c.toNat < 256 := by omega
      rw [show utf8Bytes c.toNat = [c.toNat] by simp [utf8Bytes, h80]]
      rw [show blocks [c.toNat] = percentByte c.toNat by simp [blocks]]
      rw [replacePass_pblock c.toNat hb cs]
      cases h7 : sevenBytes.contains c.toNat with
      | true => simp [h7, Char.ofNat_toNat]
      | false => simp [h7]
    · have hlt := char_toNat_lt c
      have hbs : ∀ b ∈ utf8Bytes c.toNat, b < 256 ∧ sevenBytes.contains b = false := by
        intro b hbmem
        refine ⟨utf8Bytes_bounds c.toNat hlt b hbmem, ?_⟩
        cases h7 : sevenBytes.contains b with
        | true =>
          have := seven_lt b h7
          have := utf8Bytes_hi c.toNat (by omega) b hbmem
          omega
        | false => rfl
      have h7c : sevenBytes.contains c.toNat = false := by
        cases h7 : sevenBytes.contains c.toNat with
        | true => have := seven_lt c.toNat h7; omega
        | false => rfl
      rw [h7c]
      simp only [Bool.false_eq_true, not_false_iff, if_neg, ite_false]
      exact replacePass_blocks _ hbs cs

/-! ## Helper lemmas: the paren-escape pass -/

theorem epp_cons (c : Char) (cs : List Char) :
    escapeParensPass (c :: cs) = escParChar c ++ escapeParensPass cs := rfl

theorem epp_append (xs ys : List Char) :
    escapeParensPass (xs ++ ys) = escapeParensPass xs ++ escapeParensPass ys := by
  induction xs with
  | nil => rfl
  | cons c xs ih =>
    simp only [List.cons_append, epp_cons, ih, List.append_assoc]

theorem epp_pblock : ∀ b : Nat, b < 256 →
    escapeParensPass (percentByte b) = percentByte b := by decide

theorem epp_blocks (bs : List Nat) (h : ∀ b ∈ bs, b < 256) :
    escapeParensPass (blocks bs) = blocks bs := by
  induction bs with
  | nil => rfl
  | cons b bs ih =>
    rw [show blocks (b :: bs) = percentByte b ++ blocks bs from rfl, epp_append,
      epp_pblock b (h b (List.mem_cons_self b bs)),
      ih (fun x hx => h x (List.mem_cons_of_mem b hx))]

theorem seven_ne_paren (c : Char) (h : sevenBytes.contains c.toNat = true) :
    c ≠ '(' ∧ c ≠ ')' := by
  constructor <;> intro hc <;> rw [hc] at h <;> exact absurd h (by decide)

theorem epp_midChar (c : Char) :
    escapeParensPass (midChar c) = jsCookieCharEnc c := by
  by_cases hl : c = '('
  · subst hl; decide
  · by_cases hr : c = ')'
    · subst hr; decide
    · by_cases hs : isUriSafe c
      · simp only [midChar, jsCookieCharEnc, hs, hl, hr, ite_true, ite_false, if_neg, if_pos,
          epp_cons, escParChar]
        simp [hl, hr, escapeParensPass]
      · simp only [midChar, jsCookieCharEnc, hs, hl, hr, Bool.false_eq_true, not_false_iff,
          if_neg, ite_false]
        cases h7 : sevenBytes.contains c.toNat with
        | true =>
          simp only [ite_true, if_pos]
          have hnp := seven_ne_paren c h7
          simp [escapeParensPass, escParChar, hnp.1, hnp.2]
        | false =>
          simp only [Bool.false_eq_true, not_false_iff, if_neg, ite_false]
          exact epp_blocks _ (utf8Bytes_bounds c.toNat (char_toNat_lt c))

/-! ## The key-encoding equivalence -/

theorem key_encode_eq (cs : List Char) :
    escapeParensPass (replacePass (encodeAll cs)) =
      cs.foldr (fun c acc => jsCookieCharEnc c ++ acc) [] := by
  induction cs with
  | nil => rfl
  | cons c cs ih =>
    rw [show encodeAll (c :: cs) = encChar c ++ encodeAll cs from rfl,
      replacePass_encChar, epp_append, epp_midChar, ih]
    rfl

/-! ## Claim theorems -/

/-- C8. Configuration error is fatal: for every cookie header value
(present, empty, or absent), `getCognitoCookieInfo` with a missing
(undefined or empty) client id raises the configuration error rather than
returning the all-absent record. -/
theorem getCognitoCookieInfo_requires_clientId (cookieString : Option String) :
    getCognitoCookieInfo cookieString none = Except.error ConfigError.missingClientId ∧
    getCognitoCookieInfo cookieString (some "") = Except.error ConfigError.missingClientId :=
  ⟨rfl, rfl⟩

/-- Exception-free characterization helpers for the verifier. -/
theorem jsTruthy_some_ne (t : String) (ht : t ≠ "") : jsTruthy (some t) = true := by
  simp [jsTruthy, ht]

theorem findMatchingPem_some_header (α : Type) (env : String → TokenFacts α)
    (pems : List AWSCognitoPublicPem) (t : String) (h : JwtHeader)
    (ht : t ≠ "") (hh : (env t).header = some h) :
    findMatchingPem env pems t =
      Except.ok (pems.find? (fun p => h.kid == some p.kid)) := by
  unfold findMatchingPem
  rw [if_neg (by simp [ht]), hh]

theorem findMatchingPem_none_header (α : Type) (env : String → TokenFacts α)
    (pems : List AWSCognitoPublicPem) (t : String)
    (ht : t ≠ "") (hh : (env t).header = none) :
    findMatchingPem env pems t = Except.error JwtError.malformedHeader := by
  unfold findMatchingPem
  rw [if_neg (by simp [ht]), hh]

theorem contains_ne_rs256 (a : String) (ha : a ≠ "RS256") :
    (["RS256"].contains a) = false := by
  have hc : (a == "RS256") = false := beq_eq_false_iff_ne.mpr ha
  simp [List.contains, List.elem, hc]

/-- C2. Algorithm allow-list: for every key store and every token whose
declared signature algorithm is anything other than RS256, `verifyToken`
returns `null`, even if the token is otherwise well-formed and its key id
is present in the store (the algorithm is fixed by the allow-list
`["RS256"]` passed to `jwt.verify`, never taken from the token). -/
theorem verifyToken_rejects_non_allowlisted_alg (α : Type)
    (env : String → TokenFacts α) (pems : List AWSCognitoPublicPem)
    (t : String) (validate : Option (α → Bool)) (h : JwtHeader)
    (hh : (env t).header = some h) (halg : h.alg ≠ "RS256") :
    verifyToken env pems (some t) validate = none := by
  unfold verifyToken verifyTokenLogged
  by_cases ht0 : t = ""
  · simp [ht0, jsTruthy]
  · simp only [Option.getD_some]
    rw [findMatchingPem_some_header α env pems t h ht0 hh]
    cases hfind : pems.find? (fun p => h.kid == some p.kid) with
    | none => simp [jsTruthy, ht0]
    | some pe =>
      have hjv : jwtVerify (env t) pe.pem ["RS256"] = Except.error JwtError.invalidAlgorithm := by
        unfold jwtVerify
        rw [hh]
        dsimp only
        rw [contains_ne_rs256 h.alg halg]
        simp
      simp [jsTruthy, ht0, hjv]

/-- C2 witness: a token declaring HS256, signed with a key present in the
store, is rejected. -/
theorem verifyToken_rejects_non_allowlisted_alg_witness :
    verifyToken sampleEnvHs samplePems (some "tok") none = none :=
  verifyToken_rejects_non_allowlisted_alg IdTokenData sampleEnvHs samplePems "tok" none
    ⟨"HS256", some "kid1"⟩ rfl (by decide)

/-- C4. Verifier totality: for a null token, an empty token, a token whose
header segment does not parse, or a token whose declared key id is absent
from the key store, `verifyToken` returns `null`; exceptions from the
malformed header are caught inside `verifyToken` (its return type carries
no exception), never propagated to the caller. -/
theorem verifyToken_absent_on_malformed (α : Type)
    (env : String → TokenFacts α) (pems : List AWSCognitoPublicPem)
    (token : Option String) (validate : Option (α → Bool))
    (hcase : token = none ∨ token = some "" ∨
      (∃ t, token = some t ∧ (env t).header = none) ∨
      (∃ t h, token = some t ∧ (env t).header = some h ∧
        pems.find? (fun p => h.kid == some p.kid) = none)) :
    verifyToken env pems token validate = none := by
  unfold verifyToken verifyTokenLogged
  rcases hcase with h | h | ⟨t, ht, hh⟩ | ⟨t, hdr, ht, hh, hfind⟩
  · subst h; rfl
  · subst h; rfl
  · subst ht
    by_cases ht0 : t = ""
    · simp [ht0, jsTruthy]
    · simp only [Option.getD_some]
      rw [findMatchingPem_none_header α env pems t ht0 hh]
      simp [jsTruthy, ht0]
  · subst ht
    by_cases ht0 : t = ""
    · simp [ht0, jsTruthy]
    · simp only [Option.getD_some]
      rw [findMatchingPem_some_header α env pems t hdr ht0 hh, hfind]
      simp [jsTruthy, ht0]

/-- C4 witness: a token whose header segment does not parse yields `null`. -/
theorem verifyToken_absent_on_malformed_witness :
    verifyToken sampleEnvBadHeader samplePems (some "garbage") none = none :=
  verifyToken_absent_on_malformed IdTokenData sampleEnvBadHeader samplePems
    (some "garbage") none (Or.inr (Or.inr (Or.inl ⟨"garbage", rfl, rfl⟩)))

/-- C5. Expired tokens: an expired but otherwise valid token (parseable
header, key id found in the store, RS256, valid signature) yields `null`
with an empty diagnostic log, and — second conjunct — the diagnostic log
never contains the expiry error for any input whatsoever, so expiry is
never logged while only other caught failures reach the log. -/
theorem verifyToken_expired_is_silent :
    (∀ (α : Type) (env : String → TokenFacts α) (pems : List AWSCognitoPublicPem)
       (t : String) (validate : Option (α → Bool)) (h : JwtHeader) (pe : AWSCognitoPublicPem),
       (env t).header = some h → h.alg = "RS256" →
       pems.find? (fun p => h.kid == some p.kid) = some pe →
       (env t).sigValidWith pe.pem = true → (env t).expired = true →
       verifyTokenLogged env pems (some t) validate = (none, [])) ∧
    (∀ (α : Type) (env : String → TokenFacts α) (pems : List AWSCognitoPublicPem)
       (token : Option String) (validate : Option (α → Bool)) (e : JwtError),
       e ∈ (verifyTokenLogged env pems token validate).2 → e ≠ JwtError.tokenExpired) := by
  constructor
  · intro α env pems t validate h pe hh halg hfind hsig hexp
    unfold verifyTokenLogged
    by_cases ht0 : t = ""
    · simp [ht0, jsTruthy]
    · simp only [Option.getD_some]
      rw [findMatchingPem_some_header α env pems t h ht0 hh, hfind]
      have hjv : jwtVerify (env t) pe.pem ["RS256"] = Except.error JwtError.tokenExpired := by
        unfold jwtVerify
        rw [hh]
        dsimp only
        simp [halg, hsig, hexp, List.contains, List.elem]
      simp [jsTruthy, ht0, hjv]
  · intro α env pems token validate e hmem
    cases token with
    | none => simp [verifyTokenLogged, jsTruthy] at hmem
    | some t =>
      by_cases ht0 : t = ""
      · subst ht0
        simp [verifyTokenLogged, jsTruthy] at hmem
      · unfold verifyTokenLogged at hmem
        simp only [jsTruthy, Bool.not_not, Option.getD_some] at hmem
        rw [if_neg (by simp [ht0])] at hmem
        cases hfm : findMatchingPem env pems t with
        | error e1 =>
          rw [hfm] at hmem
          dsimp only at hmem
          by_cases he1 : e1 = JwtError.tokenExpired
          · rw [if_pos he1] at hmem
            simp at hmem
          · rw [if_neg he1] at hmem
            simp only [List.mem_singleton] at hmem
            subst hmem
            exact he1
        | ok op =>
          cases op with
          | none =>
            rw [hfm] at hmem
            simp at hmem
          | some pe =>
            rw [hfm] at hmem
            dsimp only at hmem
            cases hjv : jwtVerify (env t) pe.pem ["RS256"] with
            | error e1 =>
              rw [hjv] at hmem
              dsimp only at hmem
              by_cases he1 : e1 = JwtError.tokenExpired
              · rw [if_pos he1] at hmem
                simp at hmem
              · rw [if_neg he1] at hmem
                simp only [List.mem_singleton] at hmem
                subst hmem
                exact he1
            | ok data =>
              rw [hjv] at hmem
              dsimp only at hmem
              cases validate with
              | none => simp at hmem
              | some v =>
                dsimp only at hmem
                by_cases hv : (!(v data)) = true
                · rw [if_pos hv] at hmem
                  simp at hmem
                · rw [if_neg hv] at hmem
                  simp at hmem

/-- C5 witness: a concrete expired-but-otherwise-valid token yields `null`
with an empty log. -/
theorem verifyToken_expired_is_silent_witness :
    verifyTokenLogged sampleEnvExpired samplePems (some "tok")
      (none : Option (IdTokenData → Bool)) = (none, []) :=
  verifyToken_expired_is_silent.1 IdTokenData sampleEnvExpired samplePems "tok" none
    ⟨"RS256", some "kid1"⟩ ⟨"kid1", "pem1"⟩ rfl rfl (by decide) rfl rfl

/-- C6. The auto-logout listener can never reach the `Auth.signOut` branch:
its guard `if (idToken)` sits inside `if (!idToken && isAuthenticated)`, so
when the live cookie has no id token and the held state is authenticated
(off the token route) the listener reloads the page instead of triggering
the external sign-out flow. First conjunct: the concrete transition the
spec describes yields a reload; second conjunct: no input whatsoever
produces `signOutFlow`. -/
theorem autoLogout_never_signs_out :
    autoLogoutAction none true "/" "https://app.example.com/page" = LogoutAction.reload ∧
    ∀ (cookieIdToken : Option String) (isAuthenticated : Bool) (pathname href : String),
      autoLogoutAction cookieIdToken isAuthenticated pathname href = LogoutAction.noop ∨
      autoLogoutAction cookieIdToken isAuthenticated pathname href = LogoutAction.reload := by
  constructor
  · rfl
  · intro it auth path href
    unfold autoLogoutAction
    by_cases h1 : ((!(jsTruthy it)) && auth) = true
    · rw [if_pos h1]
      by_cases h2 : onTokenPage path = true
      · rw [if_pos h2]
        left
        rfl
      · rw [if_neg h2]
        have hfalse : jsTruthy it = false := by
          have hn := (Bool.and_eq_true _ _).mp h1
          simpa using hn.1
        rw [if_neg (by simp [hfalse])]
        right
        rfl
    · rw [if_neg h1]
      left
      rfl

/-- C7. Token-route suppression: while the pathname is `/token` or under
`/token/`, the auto-login listener never reloads on a login cross-tab
signal and the auto-logout listener never triggers sign-out or reload on a
focus or storage event, for every held state and live-cookie state. -/
theorem token_route_suppresses_actions
    (eventKey : String) (eventNewValue : Option String) (cookieIdToken : Option String)
    (auth : Option AuthTokensRec) (pathname : String) (isAuthenticated : Bool) (href : String)
    (htoken : onTokenPage pathname = true) :
    autoLoginAction eventKey eventNewValue cookieIdToken auth pathname = LoginAction.noop ∧
    autoLogoutAction cookieIdToken isAuthenticated pathname href = LogoutAction.noop := by
  constructor
  · unfold autoLoginAction
    by_cases h1 : (eventKey != AUTH_SYNC_KEY || eventNewValue == none) = true
    · rw [if_pos h1]
    · rw [if_neg h1]
      by_cases h2 : (jsTruthy cookieIdToken
          && (match auth with
              | none => true
              | some a => a.idToken != cookieIdToken.getD "")) = true
      · rw [if_pos h2, if_pos htoken]
      · rw [if_neg h2]
  · unfold autoLogoutAction
    by_cases h1 : ((!(jsTruthy cookieIdToken)) && isAuthenticated) = true
    · rw [if_pos h1, if_pos htoken]
    · rw [if_neg h1]

/-- C7 witness: on `/token`, a login signal with a fresh cookie id token
does not reload, and a missing cookie id token with an authenticated held
state does not sign out. -/
theorem token_route_suppresses_actions_witness :
    autoLoginAction AUTH_SYNC_KEY (some "login") none none "/token" = LoginAction.noop ∧
    autoLogoutAction none true "/token" "https://app.example.com/token" = LogoutAction.noop :=
  token_route_suppresses_actions AUTH_SYNC_KEY (some "login") none none "/token" true
    "https://app.example.com/token" (by decide)

/-- The truthiness filter used for every cookie field never produces an
empty string. -/
theorem truthy_filter_ne_empty (v : Option String) :
    (if jsTruthy v then v else none) ≠ some "" := by
  cases v with
  | none => simp [jsTruthy]
  | some s =>
    by_cases hs : s = ""
    · subst hs; simp [jsTruthy]
    · simp [jsTruthy, hs]

/-- The token-field shape of `getCognitoCookieInfo` never produces an empty
string. -/
theorem match_filter_ne_empty (lu : Option String) (f : String → Option String) :
    (match lu with
     | some u => if jsTruthy (f u) then f u else none
     | none => none) ≠ some "" := by
  cases lu with
  | none => simp
  | some u => exact truthy_filter_ne_empty (f u)

/-- C9. Implicit invariant: whenever the locator returns `lastUser = null`
(the `LastAuthUser` cookie absent or empty), both token fields are `null`
as well, regardless of what token cookies exist in the header under other
keys. -/
theorem no_lastUser_no_tokens (c clientId : String) (info : CognitoCookieInfo)
    (hok : getCognitoCookieInfo (some c) (some clientId) = Except.ok info)
    (hlu : info.lastUser = none) :
    info.idToken = none ∧ info.accessToken = none := by
  unfold getCognitoCookieInfo at hok
  by_cases hcid : jsTruthy (some clientId) = true
  · rw [if_neg (by simp [hcid])] at hok
    dsimp only at hok
    by_cases hc : jsTruthy (some c) = true
    · rw [if_neg (by simp [hc])] at hok
      rw [Except.ok.injEq] at hok
      subst hok
      dsimp only at hlu
      dsimp only
      rw [hlu]
      exact ⟨rfl, rfl⟩
    · rw [if_pos (by simp [Bool.not_eq_true] at hc; simp [hc])] at hok
      rw [Except.ok.injEq] at hok
      subst hok
      exact ⟨rfl, rfl⟩
  · rw [if_pos (by simp [Bool.not_eq_true] at hcid; simp [hcid])] at hok
    cases hok

/-- C9 witness: a header carrying token cookies for `alice` but no
`LastAuthUser` cookie yields three `null` fields. -/
theorem no_lastUser_no_tokens_witness :
    getCognitoCookieInfo
      (some "CognitoIdentityServiceProvider.app.alice.idToken=tokI") (some "app") =
      Except.ok unauthenticatedCookies ∧
    unauthenticatedCookies.idToken = none ∧ unauthenticatedCookies.accessToken = none :=
  ⟨by decide,
   no_lastUser_no_tokens "CognitoIdentityServiceProvider.app.alice.idToken=tokI" "app"
     unauthenticatedCookies (by decide) rfl⟩

/-- C10. Empty strings are treated as absence throughout the locator: an
empty cookie header behaves like an absent one (all-absent record), and no
field of the returned record is ever the empty string (a present cookie
with an empty value yields `null` for that field). -/
theorem empty_strings_are_absence :
    (∀ clientId : String, clientId ≠ "" →
       getCognitoCookieInfo (some "") (some clientId) = Except.ok unauthenticatedCookies ∧
       getCognitoCookieInfo none (some clientId) = Except.ok unauthenticatedCookies) ∧
    (∀ (cookieString clientId : Option String) (info : CognitoCookieInfo),
       getCognitoCookieInfo cookieString clientId = Except.ok info →
       info.lastUser ≠ some "" ∧ info.idToken ≠ some "" ∧ info.accessToken ≠ some "") := by
  constructor
  · intro cid hcid
    constructor <;> (unfold getCognitoCookieInfo; simp [jsTruthy, hcid])
  · intro cs cid info hok
    unfold getCognitoCookieInfo at hok
    by_cases hcid : jsTruthy cid = true
    · rw [if_neg (by simp [hcid])] at hok
      dsimp only at hok
      by_cases hcs : jsTruthy cs = true
      · rw [if_neg (by simp [hcs])] at hok
        rw [Except.ok.injEq] at hok
        subst hok
        refine ⟨truthy_filter_ne_empty _, ?_, ?_⟩
        · exact match_filter_ne_empty _ _
        · exact match_filter_ne_empty _ _
      · rw [if_pos (by simp [Bool.not_eq_true] at hcs; simp [hcs])] at hok
        rw [Except.ok.injEq] at hok
        subst hok
        exact ⟨by simp [unauthenticatedCookies], by simp [unauthenticatedCookies],
          by simp [unauthenticatedCookies]⟩
    · rw [if_pos (by simp [Bool.not_eq_true] at hcid; simp [hcid])] at hok
      cases hok

/-- C10 witness: a header whose `LastAuthUser` cookie is present but empty
yields the all-absent record, and the never-empty-string property holds of
it. -/
theorem empty_strings_are_absence_witness :
    (getCognitoCookieInfo (some "") (some "app") = Except.ok unauthenticatedCookies ∧
     getCognitoCookieInfo none (some "app") = Except.ok unauthenticatedCookies) ∧
    (unauthenticatedCookies.lastUser ≠ some "" ∧
     unauthenticatedCookies.idToken ≠ some "" ∧
     unauthenticatedCookies.accessToken ≠ some "") :=
  ⟨empty_strings_are_absence.1 "app" (by decide),
   empty_strings_are_absence.2 (some "CognitoIdentityServiceProvider.app.LastAuthUser=")
     (some "app") unauthenticatedCookies (by decide)⟩

/-- A successful `verifyToken` with a `validate` predicate implies the
predicate accepted the returned payload. -/
theorem verifyToken_validate_sound (α : Type) (env : String → TokenFacts α)
    (pems : List AWSCognitoPublicPem) (token : Option String) (v : α → Bool) (d : α)
    (hok : verifyToken env pems token (some v) = some d) : v d = true := by
  unfold verifyToken verifyTokenLogged at hok
  cases token with
  | none => simp [jsTruthy] at hok
  | some t =>
    by_cases ht0 : t = ""
    · subst ht0; simp [jsTruthy] at hok
    · simp only [Option.getD_some] at hok
      rw [if_neg (by simp [jsTruthy, ht0])] at hok
      cases hfm : findMatchingPem env pems t with
      | error e1 =>
        rw [hfm] at hok
        simp at hok
      | ok op =>
        cases op with
        | none =>
          rw [hfm] at hok
          simp at hok
        | some pe =>
          rw [hfm] at hok
          dsimp only at hok
          cases hjv : jwtVerify (env t) pe.pem ["RS256"] with
          | error e1 =>
            rw [hjv] at hok
            simp at hok
          | ok data =>
            rw [hjv] at hok
            dsimp only at hok
            by_cases hv : (!(v data)) = true
            · rw [if_pos hv] at hok
              simp at hok
            · rw [if_neg hv] at hok
              have hdd : data = d := by simpa using hok
              subst hdd
              simpa using hv

/-- C1. All-or-nothing session invariant: `getAuthFromCookies` returns a
non-null record only if the cookie header is present (truthy), the locator
found both token cookie values (equal to the raw tokens retained in the
record), both tokens passed `verifyToken` with their respective
audience/client-id predicates, and hence the id token's `aud` claim and the
access token's `client_id` claim both equal the configured client id; the
contrapositive gives `null` whenever any of these fails (in particular for
a valid id token paired with an access token whose `client_id`
mismatches). -/
theorem getAuth_all_or_nothing
    (envId : String → TokenFacts IdTokenData) (envAccess : String → TokenFacts AccessTokenData)
    (pems : List AWSCognitoPublicPem) (clientId : String) (cookie : Option String)
    (r : AuthTokensRec)
    (hok : getAuthFromCookies envId envAccess pems clientId cookie = Except.ok (some r)) :
    jsTruthy cookie = true ∧
    (∃ info, getCognitoCookieInfo cookie (some clientId) = Except.ok info ∧
      info.idToken = some r.idToken ∧ info.accessToken = some r.accessToken ∧
      verifyToken envId pems info.idToken (some (fun d => d.aud == clientId)) =
        some r.idTokenData ∧
      verifyToken envAccess pems info.accessToken (some (fun d => d.client_id == clientId)) =
        some r.accessTokenData) ∧
    r.idTokenData.aud = clientId ∧ r.accessTokenData.client_id = clientId := by
  unfold getAuthFromCookies at hok
  by_cases hcookie : jsTruthy cookie = true
  · rw [if_neg (by simp [hcookie])] at hok
    cases hinfo : getCognitoCookieInfo cookie (some clientId) with
    | error e =>
      rw [hinfo] at hok
      cases hok
    | ok info =>
      rw [hinfo] at hok
      dsimp only at hok
      by_cases htok : ((!(jsTruthy info.idToken)) || (!(jsTruthy info.accessToken))) = true
      · rw [if_pos htok] at hok
        cases hok
      · rw [if_neg htok] at hok
        have hboth : jsTruthy info.idToken = true ∧ jsTruthy info.accessToken = true := by
          constructor
          · by_contra h
            apply htok
            simp [Bool.not_eq_true] at h
            simp [h]
          · by_contra h
            apply htok
            simp [Bool.not_eq_true] at h
            simp [h]
        obtain ⟨hidt, hact⟩ := hboth
        obtain ⟨its, hits⟩ : ∃ s, info.idToken = some s := by
          cases hI : info.idToken with
          | none => rw [hI] at hidt; simp [jsTruthy] at hidt
          | some s => exact ⟨s, rfl⟩
        obtain ⟨ats, hats⟩ : ∃ s, info.accessToken = some s := by
          cases hA : info.accessToken with
          | none => rw [hA] at hact; simp [jsTruthy] at hact
          | some s => exact ⟨s, rfl⟩
        cases hvid : verifyToken envId pems info.idToken
            (some (fun d => d.aud == clientId)) with
        | none =>
          rw [hvid] at hok
          cases hok
        | some i =>
          cases hvac : verifyToken envAccess pems info.accessToken
              (some (fun d => d.client_id == clientId)) with
          | none =>
            rw [hvid, hvac] at hok
            cases hok
          | some a =>
            rw [hvid, hvac] at hok
            dsimp only at hok
            rw [Except.ok.injEq, Option.some.injEq] at hok
            subst hok
            have haud := verifyToken_validate_sound IdTokenData envId pems info.idToken _ i hvid
            have hcli := verifyToken_validate_sound AccessTokenData envAccess pems
              info.accessToken _ a hvac
            refine ⟨hcookie, ⟨info, rfl, ?_, ?_, hvid, hvac⟩, ?_, ?_⟩
            · rw [hits]
              rfl
            · rw [hats]
              rfl
            · exact beq_iff_eq.mp (by simpa using haud)
            · exact beq_iff_eq.mp (by simpa using hcli)
  · rw [if_pos (by simp [Bool.not_eq_true] at hcookie; simp [hcookie])] at hok
    cases hok

/-- C1 witness: a fully valid sample configuration produces a non-null
session and hence satisfies every conjunct of the invariant. -/
theorem getAuth_all_or_nothing_witness :
    jsTruthy (some sampleCookieHeader) = true ∧
    (∃ info, getCognitoCookieInfo (some sampleCookieHeader) (some "app") = Except.ok info ∧
      info.idToken = some sampleAuthRec.idToken ∧
      info.accessToken = some sampleAuthRec.accessToken ∧
      verifyToken sampleEnvId samplePems info.idToken (some (fun d => d.aud == "app")) =
        some sampleAuthRec.idTokenData ∧
      verifyToken sampleEnvAccess samplePems info.accessToken
        (some (fun d => d.client_id == "app")) = some sampleAuthRec.accessTokenData) ∧
    sampleAuthRec.idTokenData.aud = "app" ∧ sampleAuthRec.accessTokenData.client_id = "app" :=
  getAuth_all_or_nothing sampleEnvId sampleEnvAccess samplePems "app"
    (some sampleCookieHeader) sampleAuthRec (by decide)

/-- C3. Cookie-key encoding round-trip: for every user id, the locator's
`userIdToTokenKey` computes exactly the cookie-writing library's escaping
rule (`jsCookieKeyEncode`); consequently cookie headers written by the real
external client for ids containing `+`, `(` and `)` are located correctly
(the two concrete regression headers below). -/
theorem userIdToTokenKey_matches_cookie_writer :
    (∀ s : String, userIdToTokenKey s = jsCookieKeyEncode s) ∧
    getCognitoCookieInfo (some plusUserHeader) (some "app") =
      Except.ok ⟨some "user+test@example.com", some "tokA", some "tokB"⟩ ∧
    getCognitoCookieInfo (some parenUserHeader) (some "app") =
      Except.ok ⟨some "user(test)@example.com", some "tokC", some "tokD"⟩ := by
  refine ⟨fun s => ?_, by decide, by decide⟩
  exact congrArg String.mk (key_encode_eq s.data)
